import Mathlib

/-!
Verification of the TLDR Slack summarizer's Bolt (TypeScript) intake layer and
of the streaming-delivery chunking policy, against the repository's
natural-language specification.

Strings are modelled as `List Char`.  JavaScript numbers are IEEE-754
doubles; the values arising on the verified paths are integer-valued doubles
(plus the infinities `parseInt` can overflow to), modelled by `JsNum`:
`parseInt` rounds its exact decimal value to the nearest double (ties to
even), and template-literal rendering follows ECMA-262 `Number::toString`
(decimal digits below 10^21, exponent form from 10^21 on).
-/

set_option exponentiation.threshold 1100
set_option maxRecDepth 8192

namespace TLDR

/-- Shorthand used to write character-list constants. -/
def strL (s : String) : List Char := s.toList

/-- JavaScript whitespace (the class `\s`, also used by `String.prototype.trim`):
space, tab, line feed, carriage return, vertical tab, form feed, and the
Unicode space characters (no-break space, ogham space, the en/em quad range,
line and paragraph separators, narrow no-break, medium mathematical, ideographic
space) plus the BOM; written by code point. -/
def isWsChar (c : Char) : Bool :=
  c.toNat == 0x20 || c.toNat == 0x09 || c.toNat == 0x0a || c.toNat == 0x0d ||
  c.toNat == 0x0b || c.toNat == 0x0c || c.toNat == 0xa0 || c.toNat == 0x1680 ||
  (0x2000 ≤ c.toNat && c.toNat ≤ 0x200a) ||
  c.toNat == 0x2028 || c.toNat == 0x2029 || c.toNat == 0x202f ||
  c.toNat == 0x205f || c.toNat == 0x3000 || c.toNat == 0xfeff

/-- JavaScript line terminators (LF, CR, line separator, paragraph separator),
which the regex metacharacter `.` does not match (the regexes in `intent.ts`
have no `s` flag). -/
def isLineTerm (c : Char) : Bool :=
  c.toNat == 0x0a || c.toNat == 0x0d || c.toNat == 0x2028 || c.toNat == 0x2029

/-- An ASCII decimal digit (code points of `'0'` through `'9'`). -/
def isDigitChar (c : Char) : Bool := 0x30 ≤ c.toNat && c.toNat ≤ 0x39

/-- `String.prototype.toLowerCase` on one character, for the ASCII range the
intent commands use: `'A'` through `'Z'` shift down by 32, other characters
are left unchanged. -/
def jsLowerChar (c : Char) : Char :=
  if 0x41 ≤ c.toNat ∧ c.toNat ≤ 0x5a then Char.ofNat (c.toNat + 32) else c

/-- `String.prototype.toLowerCase`, characterwise. -/
def jsLower (s : List Char) : List Char := s.map jsLowerChar

/-- Remove trailing JavaScript whitespace. -/
def dropTrailingWs (s : List Char) : List Char :=
  (s.reverse.dropWhile isWsChar).reverse

/-- `String.prototype.trim`: strip leading and trailing whitespace. -/
def jsTrim (s : List Char) : List Char :=
  dropTrailingWs (s.dropWhile isWsChar)

/-- Whether the first list is a prefix of the second (boolean). -/
def listPrefixOf : List Char → List Char → Bool
  | [], _ => true
  | _ :: _, [] => false
  | a :: as, b :: bs => a == b && listPrefixOf as bs

/-- `String.prototype.includes`: the needle occurs contiguously in the hay. -/
def jsIncludes : List Char → List Char → Bool
  | [], needle => listPrefixOf needle []
  | c :: t, needle => listPrefixOf needle (c :: t) || jsIncludes t needle

/-- Whether a list starts with a whitespace character (used to decide `\s+`). -/
def headIsWs : List Char → Bool
  | [] => false
  | c :: _ => isWsChar c

/-- Case-insensitive literal prefix test: `pat` (given lowercased) against the
start of `t`. -/
def ciPrefixAt (pat : List Char) (t : List Char) : Bool :=
  listPrefixOf pat (jsLower t)

/-- `text.split(/\s+/)` from `intent.ts`.  The flag is `true` while inside a
separator run (a leading run yields a leading empty token, a trailing run a
trailing empty token, exactly as in JavaScript). -/
def splitWsGo : Bool → List Char → List Char → List (List Char)
  | _, cur, [] => [cur.reverse]
  | true, cur, c :: t =>
      if isWsChar c then splitWsGo true cur t else splitWsGo false [c] t
  | false, cur, c :: t =>
      if isWsChar c then cur.reverse :: splitWsGo true [] t
      else splitWsGo false (c :: cur) t

/-- `text.split(/\s+/)`. -/
def splitWs (s : List Char) : List (List Char) := splitWsGo false [] s

/-! The JavaScript number model.  A JavaScript number is an IEEE-754 double;
on the paths verified here the values that arise are integer-valued doubles
(plus the infinities `parseInt` can overflow to), so a number is modelled as
its exact integer value together with the two infinities.  `parseInt` rounds
its exact decimal value to the nearest double (ties to even, overflow to
infinity), and template-literal rendering follows ECMA-262 `Number::toString`
(decimal digits below 10^21, exponent form from 10^21 on). -/

/-- Decimal digit rendering of a natural number. -/
def natToChars (n : Nat) : List Char := strL (toString n)

/-- Plain decimal rendering of an integer: sign, then decimal digits. -/
def intToChars (v : Int) : List Char :=
  if v < 0 then '-' :: natToChars v.natAbs else natToChars v.natAbs

/-- Number of binary digits of a natural number (0 for 0).  The first
argument is fuel (`n` halvings always suffice). -/
def bitLenGo : Nat → Nat → Nat
  | 0, _ => 0
  | fuel + 1, n => if n = 0 then 0 else bitLenGo fuel (n / 2) + 1

/-- Number of binary digits of a natural number. -/
def bitLen (n : Nat) : Nat := bitLenGo (n + 1) n

/-- Round a natural number to the nearest integer with at most 53 significant
binary digits — the rounding IEEE-754 binary64 applies to integer values —
with ties going to an even mantissa.  Values below `2^53` are exact. -/
def roundMantissa (n : Nat) : Nat :=
  if n < 2 ^ 53 then n
  else
    let k := bitLen n - 53
    let p := 2 ^ k
    let q := n / p
    let r := n % p
    let q2 := if 2 * r > p || (2 * r == p && q % 2 == 1) then q + 1 else q
    q2 * p

/-- An integer-valued JavaScript number: a finite integer-valued double
(carried as its exact integer value) or one of the infinities.  `NaN` is
represented where it can occur by `Option.none`. -/
inductive JsNum where
  | finite (v : Int)
  | inf
  | negInf
deriving DecidableEq, Repr

/-- JavaScript unary minus on a number. -/
def JsNum.neg : JsNum → JsNum
  | JsNum.finite v => JsNum.finite (-v)
  | JsNum.inf => JsNum.negInf
  | JsNum.negInf => JsNum.inf

/-- The double a non-negative exact integer converts to: round to 53
significant bits, overflowing to infinity at `2^1024`. -/
def natToJsNum (n : Nat) : JsNum :=
  let r := roundMantissa n
  if r < 2 ^ 1024 then JsNum.finite r else JsNum.inf

/-- Number of decimal digits of a natural number. -/
def decLen (n : Nat) : Nat := (natToChars n).length

/-- One candidate of the shortest-digits search of `Number::toString`: the
nearest `L`-digit decimal to `n` (ties to even), accepted when it denotes the
same double as `n`. -/
def sigCandidate (n m L : Nat) : Option Nat :=
  if m ≤ L then some n
  else
    let p := 10 ^ (m - L)
    let d0 := n / p
    let r := n % p
    let d := if 2 * r > p || (2 * r == p && d0 % 2 == 1) then d0 + 1 else d0
    if roundMantissa (d * p) == roundMantissa n then some d else none

/-- Try significand lengths in order; 17 digits always identify a double. -/
def sigTry (n m : Nat) : List Nat → Option (Nat × Nat)
  | [] => none
  | L :: rest =>
      match sigCandidate n m L with
      | some d => some (d, m - L)
      | none => sigTry n m rest

/-- Remove trailing decimal zeros of a significand, moving them into the
exponent.  The first argument is fuel. -/
def stripZerosGo : Nat → Nat → Nat → Nat × Nat
  | 0, d, e => (d, e)
  | fuel + 1, d, e =>
      if d % 10 == 0 && 0 < d then stripZerosGo fuel (d / 10) (e + 1)
      else (d, e)

/-- ECMA-262 `Number::toString` exponent form for an integer-valued double:
the shortest decimal significand `s` (no trailing zeros) whose value denotes
the same double, written `s[0].s[1..]e+<exponent>`.  Where several shortest
significands denote the double (the specification leaves the last digit
implementation-defined) the nearest one, ties to even, is produced. -/
def expForm (n : Nat) : List Char :=
  let m := decLen n
  let s0e0 :=
    match sigTry n m (List.range' 1 17) with
    | some de => de
    | none => (n, 0)
  let se := stripZerosGo s0e0.1 s0e0.1 s0e0.2
  let digs := natToChars se.1
  let nExp := se.2 + digs.length - 1
  (match digs with
    | [] => []
    | [d0] => [d0]
    | d0 :: rest => d0 :: '.' :: rest) ++ 'e' :: '+' :: natToChars nExp

/-- The integer whose decimal digits `Number::toString` prints for an
integer-valued double below `10^21`: the shortest significand padded with
zeros.  Below `2^53` that value is the number itself (an integer candidate
within half an ulp — at most one half — of an exactly represented integer
must equal it), so the number's own digits are printed. -/
def decForm (n : Nat) : Nat :=
  if n < 2 ^ 53 then n
  else
    match sigTry n (decLen n) (List.range' 1 17) with
    | some de => de.1 * 10 ^ de.2
    | none => n

/-- ECMA-262 `Number::toString` of a non-negative integer-valued double:
decimal digits (of the shortest significand, zero-padded) below `10^21`,
exponent form from `10^21` on. -/
def jsNatToChars (n : Nat) : List Char :=
  if n < 10 ^ 21 then natToChars (decForm n) else expForm n

/-- ECMA-262 `Number::toString` of an integer-valued double. -/
def jsNumberToChars (v : Int) : List Char :=
  if v < 0 then '-' :: jsNatToChars v.natAbs else jsNatToChars v.natAbs

/-- The string a template literal renders a JavaScript number as. -/
def jsNumToChars : JsNum → List Char
  | JsNum.finite v => jsNumberToChars v
  | JsNum.inf => strL "Infinity"
  | JsNum.negInf => strL "-Infinity"

/-- Exact numeric value of a digit string (most significant first). -/
def digitsVal (ds : List Char) : Nat :=
  ds.foldl (fun a c => a * 10 + (c.toNat - 48)) 0

/-- The digit-prefix part of `parseInt(s, 10)`: the exact value of the
longest leading run of decimal digits, `none` when there is none
(JavaScript `NaN`). -/
def parseDigits (t : List Char) : Option Nat :=
  let ds := t.takeWhile isDigitChar
  if ds.isEmpty then none else some (digitsVal ds)

/-- JavaScript `parseInt(s, 10)`: skip leading whitespace, optional sign,
then the longest decimal-digit prefix, whose exact value is converted to the
nearest double; `none` models `NaN`. -/
def parseJsInt (s : List Char) : Option JsNum :=
  match s.dropWhile isWsChar with
  | [] => none
  | c :: r =>
      if c == '-' then (parseDigits r).map (fun n => (natToJsNum n).neg)
      else if c == '+' then (parseDigits r).map natToJsNum
      else (parseDigits (c :: r)).map natToJsNum

/-! Embedding of `bolt-ts/src/intent.ts`. -/

/-- Parsed user intent, mirroring the `UserIntent` union in
`bolt-ts/src/types.ts`. -/
inductive UserIntent where
  | help
  | style (instructions : List Char)
  | clearStyle
  | summarize (count : Option JsNum) (targetChannel : Option (List Char))
      (postHere : Bool) (styleOverride : Option (List Char))
  | unknown
deriving DecidableEq, Repr

/-- The alternation `(clear|reset|remove)` of the clear-style regex, tried
case-insensitively at the start of `t`; returns the rest of the input. -/
def clearWordAt (t : List Char) : Option (List Char) :=
  if ciPrefixAt (strL "clear") t then some (t.drop 5)
  else if ciPrefixAt (strL "reset") t then some (t.drop 5)
  else if ciPrefixAt (strL "remove") t then some (t.drop 6)
  else none

/-- The test `/^\s*(clear|reset|remove)\s+style\s*$/i.test(text)` from
`intent.ts`. -/
def isClearStyleCmd (text : List Char) : Bool :=
  match clearWordAt (text.dropWhile isWsChar) with
  | none => false
  | some r =>
      headIsWs r && ciPrefixAt (strL "style") (r.dropWhile isWsChar) &&
        ((r.dropWhile isWsChar).drop 5).all isWsChar

/-- `text.match(/^\s*style\s*:\s*(.+?)\s*$/i)` from `intent.ts`: `some` holds
the captured group.  The lazy group together with the `\s*$` tail captures the
remainder with its surrounding whitespace stripped; `.` does not match line
terminators, so a remainder whose trimmed core contains one cannot match.
When the remainder is whitespace only, the greedy leading `\s*` backtracks and
the group captures whitespace, which the caller trims to the empty string. -/
def styleCmdCapture (text : List Char) : Option (List Char) :=
  let t := text.dropWhile isWsChar
  if ciPrefixAt (strL "style") t then
    match (t.drop 5).dropWhile isWsChar with
    | ':' :: rest =>
        let core := dropTrailingWs (rest.dropWhile isWsChar)
        if core.isEmpty then
          if rest.any (fun c => !isLineTerm c) then some [] else none
        else if core.any isLineTerm then none else some core
    | _ => none
  else none

/-- One attempt of `/with\s+style\s*:\s*(.+?)$/i` at the start of `t`,
returning the raw capture.  Since the lazy group runs to the end anchor, the
capture is the remainder after the colon and the greedy whitespace; it must be
non-empty and free of line terminators.  For a whitespace-only remainder the
greedy `\s*` backtracks one character, so the capture is the last character
when it is not a line terminator. -/
def withStyleAt (t : List Char) : Option (List Char) :=
  if ciPrefixAt (strL "with") t then
    let r := t.drop 4
    if headIsWs r then
      let r2 := r.dropWhile isWsChar
      if ciPrefixAt (strL "style") r2 then
        match (r2.drop 5).dropWhile isWsChar with
        | ':' :: rest =>
            let afterWs := rest.dropWhile isWsChar
            if afterWs.isEmpty then
              match rest.reverse with
              | [] => none
              | c :: _ => if isLineTerm c then none else some [c]
            else if afterWs.any isLineTerm then none else some afterWs
        | _ => none
      else none
    else none
  else none

/-- Leftmost-match search for the style-override regex. -/
def styleOverrideSearch : List Char → Option (List Char)
  | [] => none
  | c :: t =>
      match withStyleAt (c :: t) with
      | some cap => some cap
      | none => styleOverrideSearch t

/-- `styleOverride` in `intent.ts`: the capture of
`/with\s+style\s*:\s*(.+?)$/i`, trimmed, with an empty trim coerced to null
(`styleOverrideMatch[1]?.trim() || null`). -/
def styleOverrideOf (text : List Char) : Option (List Char) :=
  match styleOverrideSearch text with
  | none => none
  | some cap =>
      let tr := jsTrim cap
      if tr.isEmpty then none else some tr

/-- A channel-identifier character, the class `[A-Z0-9]` (by code point). -/
def isChanChar (c : Char) : Bool :=
  (0x41 ≤ c.toNat && c.toNat ≤ 0x5a) || (0x30 ≤ c.toNat && c.toNat ≤ 0x39)

/-- One attempt of `/<#([A-Z0-9]+)\|[^>]+>/` at the start of the input,
returning the captured channel id. -/
def chanAt : List Char → Option (List Char)
  | a :: b :: r =>
      if a == '<' && b == '#' then
        let ds := r.takeWhile isChanChar
        if ds.isEmpty then none
        else
          match r.drop ds.length with
          | '|' :: r2 =>
              let nm := r2.takeWhile (fun c => !(c == '>'))
              if nm.isEmpty then none
              else
                match r2.drop nm.length with
                | '>' :: _ => some ds
                | _ => none
          | _ => none
      else none
  | _ => none

/-- Leftmost-match search for the channel-mention regex. -/
def chanSearch : List Char → Option (List Char)
  | [] => none
  | c :: t =>
      match chanAt (c :: t) with
      | some ds => some ds
      | none => chanSearch t

/-- The `last N` scan of `intent.ts`: walk adjacent word pairs, and at the
first `last` whose successor parses as a number, stop with that number. -/
def findLastCount : List (List Char) → Option JsNum
  | w1 :: w2 :: rest =>
      if w1 == strL "last" then
        match parseJsInt w2 with
        | some v => some v
        | none => findLastCount (w2 :: rest)
      else findLastCount (w2 :: rest)
  | _ => none

/-- `parseUserIntent` from `bolt-ts/src/intent.ts`, translated clause by
clause: help first, then the clear-style regex, then the style regex (an empty
captured instruction falls back to help), then the summarize analysis. -/
def parseUserIntent (text : List Char) : UserIntent :=
  let textLower := jsTrim (jsLower text)
  if jsIncludes textLower (strL "help") || textLower == strL "?" ||
      jsIncludes textLower (strL "what can") then
    UserIntent.help
  else if isClearStyleCmd text then
    UserIntent.clearStyle
  else
    match styleCmdCapture text with
    | some instructions =>
        if 0 < instructions.length then UserIntent.style instructions
        else UserIntent.help
    | none =>
        let postHere := jsIncludes textLower (strL "post here") ||
          jsIncludes textLower (strL "public")
        let styleOverride := styleOverrideOf text
        let count := findLastCount (splitWs textLower)
        let targetChannel := chanSearch text
        let askedToRun := jsIncludes textLower (strL "summarize") || count.isSome
        if askedToRun then
          UserIntent.summarize count targetChannel postHere styleOverride
        else UserIntent.unknown

example : parseUserIntent (strL "help") = UserIntent.help := by decide
example : parseUserIntent (strL "Help") = UserIntent.help := by decide
example : parseUserIntent (strL "?") = UserIntent.help := by decide
example : parseUserIntent (strL "what can you do") = UserIntent.help := by decide
example : parseUserIntent (strL "style: write as a haiku") =
    UserIntent.style (strL "write as a haiku") := by decide
example : parseUserIntent (strL "  style :   extremely concise   ") =
    UserIntent.style (strL "extremely concise") := by decide
example : parseUserIntent (strL "style:   ") = UserIntent.help := by decide
example : parseUserIntent (strL "clear style") = UserIntent.clearStyle := by decide
example : parseUserIntent (strL "summarize") =
    UserIntent.summarize none none false none := by decide
example : parseUserIntent (strL "summarize last 50") =
    UserIntent.summarize (some (JsNum.finite 50)) none false none := by decide
example : parseUserIntent (strL "last 100") =
    UserIntent.summarize (some (JsNum.finite 100)) none false none := by decide
example : parseUserIntent (strL "summarize <#C123ABC|general>") =
    UserIntent.summarize none (some (strL "C123ABC")) false none := by decide
example : parseUserIntent (strL "summarize post here") =
    UserIntent.summarize none none true none := by decide
example : parseUserIntent (strL "summarize last 25 <#C789XYZ|random> public") =
    UserIntent.summarize (some (JsNum.finite 25)) (some (strL "C789XYZ")) true none := by decide
example : parseUserIntent (strL "summarize with style: be funny") =
    UserIntent.summarize none none false (some (strL "be funny")) := by decide
example : parseUserIntent (strL "hello world") = UserIntent.unknown := by decide

/-! Embedding of `bolt-ts/src/types.ts`. -/

/-- `Destination` from `types.ts`: `'Thread' | 'DM' | 'Channel'`. -/
inductive Destination where
  | thread
  | dm
  | channel
deriving DecidableEq, Repr

/-- The `ProcessingTask` interface from `types.ts`, fields in declaration
order.  Nullable strings are `Option (List Char)`; the nullable number
`message_count` is `Option JsNum` (see the header note on numbers). -/
structure ProcessingTask where
  correlation_id : List Char
  user_id : List Char
  channel_id : List Char
  thread_ts : Option (List Char)
  origin_channel_id : Option (List Char)
  response_url : Option (List Char)
  text : List Char
  message_count : Option JsNum
  target_channel_id : Option (List Char)
  custom_prompt : Option (List Char)
  visible : Bool
  destination : Destination
  dest_dm : Bool
  dest_public_post : Bool
deriving DecidableEq, Repr

/-- `ThreadContext` from `types.ts` (with the `defaultMessageCount` field used
by `thread_state.ts`).  An absent field of a TypeScript object literal is
`none`. -/
structure ThreadContext where
  viewingChannelId : Option (List Char)
  customStyle : Option (List Char)
  defaultMessageCount : Option Int
deriving DecidableEq, Repr

/-- A JSON value (arrays are not needed by any structure verified here). -/
inductive Json where
  | null
  | bool (b : Bool)
  | num (n : Int)
  | str (s : List Char)
  | obj (fields : List (List Char × Json))

/-- Property lookup on a JSON object's field list (objects built here never
repeat a key). -/
def jGet : List (List Char × Json) → List Char → Option Json
  | [], _ => none
  | (k, v) :: rest, key => if k = key then some v else jGet rest key

/-- Serialization of a nullable string field. -/
def optStrJson : Option (List Char) → Json
  | some s => Json.str s
  | none => Json.null

/-- Serialization of a nullable number field.  `JSON.stringify` renders the
non-finite numbers `Infinity` and `-Infinity` as `null`. -/
def optNumJson : Option JsNum → Json
  | some (JsNum.finite n) => Json.num n
  | some JsNum.inf => Json.null
  | some JsNum.negInf => Json.null
  | none => Json.null

/-- The string value of a `Destination`, as written in TypeScript and expected
by the Rust worker. -/
def destinationStr : Destination → List Char
  | Destination.thread => strL "Thread"
  | Destination.dm => strL "DM"
  | Destination.channel => strL "Channel"

/-- `JSON.stringify(task)` seen as a JSON value: one object whose fields
follow the `ProcessingTask` declaration order. -/
def taskToJson (t : ProcessingTask) : Json :=
  Json.obj
    [ (strL "correlation_id", Json.str t.correlation_id),
      (strL "user_id", Json.str t.user_id),
      (strL "channel_id", Json.str t.channel_id),
      (strL "thread_ts", optStrJson t.thread_ts),
      (strL "origin_channel_id", optStrJson t.origin_channel_id),
      (strL "response_url", optStrJson t.response_url),
      (strL "text", Json.str t.text),
      (strL "message_count", optNumJson t.message_count),
      (strL "target_channel_id", optStrJson t.target_channel_id),
      (strL "custom_prompt", optStrJson t.custom_prompt),
      (strL "visible", Json.bool t.visible),
      (strL "destination", Json.str (destinationStr t.destination)),
      (strL "dest_dm", Json.bool t.dest_dm),
      (strL "dest_public_post", Json.bool t.dest_public_post) ]

/-- Whether a JSON value is a string. -/
def isJStr : Option Json → Bool
  | some (Json.str _) => true
  | _ => false

/-- Whether a JSON value is a string or null. -/
def isJStrOrNull : Option Json → Bool
  | some (Json.str _) => true
  | some Json.null => true
  | _ => false

/-- Whether a JSON value is a number or null. -/
def isJNumOrNull : Option Json → Bool
  | some (Json.num _) => true
  | some Json.null => true
  | _ => false

/-- Whether a JSON value is a boolean. -/
def isJBool : Option Json → Bool
  | some (Json.bool _) => true
  | _ => false

/-- The task schema of spec section 6, as a check on the serialized task
(consumed from the queue): correlation_id, user_id and channel_id strings;
thread_ts, origin_channel_id and custom_prompt strings or null; message_count
a number or null; destination one of Thread, DM, Channel; and the three
visibility flags booleans. -/
def taskSchemaCheck : Json → Bool
  | Json.obj fs =>
      isJStr (jGet fs (strL "correlation_id")) &&
      isJStr (jGet fs (strL "user_id")) &&
      isJStr (jGet fs (strL "channel_id")) &&
      isJStrOrNull (jGet fs (strL "thread_ts")) &&
      isJStrOrNull (jGet fs (strL "origin_channel_id")) &&
      isJNumOrNull (jGet fs (strL "message_count")) &&
      isJStrOrNull (jGet fs (strL "custom_prompt")) &&
      (match jGet fs (strL "destination") with
        | some (Json.str d) =>
            d == strL "Thread" || d == strL "DM" || d == strL "Channel"
        | _ => false) &&
      isJBool (jGet fs (strL "visible")) &&
      isJBool (jGet fs (strL "dest_dm")) &&
      isJBool (jGet fs (strL "dest_public_post"))
  | _ => false

/-! Embedding of `bolt-ts/src/loading_messages.ts`. -/

/-- Options of `buildSummarizeLoadingMessages` (`messageCount` is a
JavaScript number). -/
structure SummarizeLoadingMessagesOptions where
  messageCount : JsNum
  hasCustomStyle : Bool
deriving DecidableEq, Repr

/-- `buildSummarizeLoadingMessages` from `loading_messages.ts`: the fixed
message list (the first entry interpolates `messageCount` as a template
literal does, the seventh depends on `hasCustomStyle`), capped with
`slice(0, 10)` because Slack enforces a maximum of 10 loading messages. -/
def buildSummarizeLoadingMessages (options : SummarizeLoadingMessagesOptions) :
    List (List Char) :=
  let messages : List (List Char) :=
    [ strL "Reading the last " ++ jsNumToChars options.messageCount ++ strL " messages…",
      strL "Finding key themes…",
      strL "Extracting decisions and action items…",
      strL "Collecting important links…",
      strL "Noting any image highlights…",
      strL "Checking for receipts or confirmations…",
      (if options.hasCustomStyle then strL "Applying your custom style…"
        else strL "Drafting a clear summary…"),
      strL "Formatting for readability…",
      strL "Almost done…" ]
  messages.take 10

/-! Embedding of `bolt-ts/src/sqs.ts`. -/

/-- The lazily initialized SQS client of `sqs.ts` (`new SQSClient({})` has no
observable configuration; the model only records that a client exists). -/
structure SqsClient where
  initialized : Bool
deriving DecidableEq, Repr

/-- The module state of `sqs.ts` plus the queue contents: the cached client
and the bodies of the messages sent so far, in order. -/
structure SqsWorld where
  client : Option SqsClient
  queue : List Json

/-- `getClient` from `sqs.ts`: reuse the cached client or construct one. -/
def getClient (w : SqsWorld) : SqsClient × SqsWorld :=
  match w.client with
  | some c => (c, w)
  | none =>
      let c : SqsClient := { initialized := true }
      (c, { w with client := some c })

/-- `sendToSqs` from `sqs.ts`: serialize the task, send one message with that
body to the queue, and hand the (unchanged) task record back to the caller.
The queue URL only addresses the queue; the model records the body. -/
def sendToSqs (task : ProcessingTask) (w : SqsWorld) : SqsWorld × ProcessingTask :=
  let (_, w1) := getClient w
  let messageBody := taskToJson task
  ({ w1 with queue := w1.queue ++ [messageBody] }, task)

/-! Embedding of `thread_state.ts` (thread-scoped state persisted in Slack
message metadata). -/

/-- `TLDR_THREAD_STATE_EVENT_TYPE` from `thread_state.ts`. -/
def tldrThreadStateEventType : List Char := strL "tldr_thread_state"

/-- Slack message metadata: an `event_type` string and an `event_payload`
object (kept as a JSON value, as `parseThreadContextFromMetadata` receives it
typed `unknown`). -/
structure SlackMessageMetadata where
  event_type : List Char
  event_payload : Json

/-- JavaScript truthiness of a nullable string (`if (state.viewingChannelId)`):
false for null and for the empty string. -/
def strTruthy : Option (List Char) → Bool
  | some s => !s.isEmpty
  | none => false

/-- `buildThreadStateMetadata` from `thread_state.ts`: start from `{ v: 1 }`
and add `viewing_channel_id` and `custom_style` only when truthy, and
`default_message_count` only when neither null nor undefined. -/
def buildThreadStateMetadata (state : ThreadContext) : SlackMessageMetadata :=
  let payload := Json.obj
    ([(strL "v", Json.num 1)]
      ++ (match state.viewingChannelId with
          | some s => if s.isEmpty then [] else [(strL "viewing_channel_id", Json.str s)]
          | none => [])
      ++ (match state.customStyle with
          | some s => if s.isEmpty then [] else [(strL "custom_style", Json.str s)]
          | none => [])
      ++ (match state.defaultMessageCount with
          | some n => [(strL "default_message_count", Json.num n)]
          | none => []))
  { event_type := tldrThreadStateEventType, event_payload := payload }

/-- `parseThreadContextFromMetadata` from `thread_state.ts`: a non-object
payload gives the default state; otherwise each field is taken only when its
`typeof` check passes (a missing or differently-typed field gives null). -/
def parseThreadContextFromMetadata (eventPayload : Json) : ThreadContext :=
  match eventPayload with
  | Json.obj fields =>
      { viewingChannelId :=
          match jGet fields (strL "viewing_channel_id") with
          | some (Json.str s) => some s
          | _ => none,
        customStyle :=
          match jGet fields (strL "custom_style") with
          | some (Json.str s) => some s
          | _ => none,
        defaultMessageCount :=
          match jGet fields (strL "default_message_count") with
          | some (Json.num n) => some n
          | _ => none }
  | _ => { viewingChannelId := none, customStyle := none, defaultMessageCount := none }

/-- `CachedThreadState` from `thread_state.ts`. -/
structure CachedThreadState where
  thread_key : List Char
  state_message_ts : List Char
  state : ThreadContext
deriving DecidableEq, Repr

/-! Embedding of the intake handlers: the `userMessage` handler of the
Assistant middleware in `handlers/assistant.ts`, and the `message` event
handler in `handlers/message.ts`.  Outbound effects are modelled explicitly:
the posts made with `chat.postMessage` and the task handed to `sendToSqs`.
The success of each fallible external call is an input (`HandlerCtx`). -/

/-- The canonical failure string of spec section 6, exactly as written at
every failure site of the handlers. -/
def canonicalFailureText : List Char :=
  strL "Sorry, I couldn't generate a summary at this time. Please try again later."

/-- The reply posted when no target channel is known (summarize branch). -/
def noChannelText : List Char :=
  strL "I don't know which channel you're viewing yet. Switch to a channel in Slack, then try `summarize` again — or mention one like `summarize <#C123|general>`."

/-- The message event fields the handlers read (`MessageEvent` in
`message.ts`; the `msg` object of `userMessage` in `assistant.ts`). -/
structure MsgEvent where
  channel : Option (List Char)
  channel_type : Option (List Char)
  user : Option (List Char)
  text : Option (List Char)
  ts : List Char
  thread_ts : Option (List Char)
  bot_id : Option (List Char)
  subtype : Option (List Char)

/-- The handler's environment: the warm-container cache entry for this thread
key, the outcome of each external call it may make (`findThreadStateMessage`,
the state-message `chat.postMessage`, `setStatus`, `sendToSqs`), and the
generated UUID. -/
structure HandlerCtx where
  cached : Option CachedThreadState
  findThrows : Bool
  findResult : Option CachedThreadState
  createStateOk : Bool
  statusOk : Bool
  sqsOk : Bool
  uuid : List Char

/-- One `chat.postMessage` call made by a handler. -/
structure SlackPost where
  channel : List Char
  thread_ts : Option (List Char)
  text : List Char
  metadata : Option SlackMessageMetadata

/-- The observable outcome of one handler invocation: the messages posted, in
order, and the task enqueued to SQS (if any). -/
structure HandlerResult where
  posts : List SlackPost
  enqueued : Option ProcessingTask

/-- A handler invocation with no outbound effect. -/
def emptyResult : HandlerResult := { posts := [], enqueued := none }

/-- A plain text reply in the assistant thread. -/
def mkPost (channel threadTs text : List Char) : SlackPost :=
  { channel := channel, thread_ts := some threadTs, text := text, metadata := none }

/-- `getThreadStateFromCache` from both handlers: the cached state, or the
default `{ viewingChannelId: null, customStyle: null }`. -/
def cacheLookup (ctx : HandlerCtx) : ThreadContext × Option (List Char) :=
  match ctx.cached with
  | some c => (c.state, some c.state_message_ts)
  | none =>
      ({ viewingChannelId := none, customStyle := none, defaultMessageCount := none }, none)

/-- The cache-miss fallback of the style branches: on a missing state-message
ts, call `findThreadStateMessage`; a throw is only logged (the prior state is
kept), a null result keeps the prior state too. -/
def loadOnMiss (ctx : HandlerCtx) (state : ThreadContext)
    (stateMessageTs : Option (List Char)) : ThreadContext × Option (List Char) :=
  match stateMessageTs with
  | some ts => (state, some ts)
  | none =>
      if ctx.findThrows then (state, none)
      else
        match ctx.findResult with
        | some f => (f.state, some f.state_message_ts)
        | none => (state, none)

/-- `intent.targetChannel ?? state.viewingChannelId`. -/
def resolveTarget (targetChannel : Option (List Char)) (state : ThreadContext) :
    Option (List Char) :=
  match targetChannel with
  | some c => some c
  | none => state.viewingChannelId

/-- The `ProcessingTask` literal built by the summarize branch of both
handlers (identical in `message.ts` and `assistant.ts`). -/
def buildSummarizeTask (uuid userId target threadTs channelId text : List Char)
    (count : Option JsNum) (effectiveStyle : Option (List Char)) : ProcessingTask :=
  { correlation_id := uuid,
    user_id := userId,
    channel_id := target,
    thread_ts := some threadTs,
    origin_channel_id := some channelId,
    response_url := none,
    text := jsLower text,
    message_count := count,
    target_channel_id := none,
    custom_prompt := effectiveStyle,
    visible := false,
    destination := Destination.thread,
    dest_dm := false,
    dest_public_post := false }

/-- The `style` case of the handlers' intent switch (identical in
`message.ts` and `assistant.ts`): load state (falling back to Slack metadata
on a cache miss), persist the new style.  With a known state message the
`chat.update` is fire-and-forget (`void ... .catch`), so only the
confirmation is posted; without one, a successful `chat.postMessage` creates
the state message and the confirmation follows, while a failed creation posts
the canonical failure string and returns. -/
def styleBranch (channelId threadTs instructions : List Char) (ctx : HandlerCtx) :
    HandlerResult :=
  let s0 := cacheLookup ctx
  let s1 := loadOnMiss ctx s0.1 s0.2
  let state := s1.1
  let nextState : ThreadContext :=
    { viewingChannelId := state.viewingChannelId,
      customStyle := some instructions,
      defaultMessageCount := none }
  match s1.2 with
  | some _ =>
      { posts := [mkPost channelId threadTs (strL "Style saved for this thread.")],
        enqueued := none }
  | none =>
      if ctx.createStateOk then
        { posts :=
            [ { channel := channelId, thread_ts := some threadTs,
                text := strL "Welcome to TLDR",
                metadata := some (buildThreadStateMetadata nextState) },
              mkPost channelId threadTs (strL "Style saved for this thread.") ],
          enqueued := none }
      else
        { posts := [mkPost channelId threadTs canonicalFailureText], enqueued := none }

/-- The `clear_style` case (identical in both handlers).  Unlike the style
case, a failed state-message creation is only logged and the confirmation is
still posted. -/
def clearStyleBranch (channelId threadTs : List Char) (ctx : HandlerCtx) :
    HandlerResult :=
  let s0 := cacheLookup ctx
  let s1 := loadOnMiss ctx s0.1 s0.2
  let state := s1.1
  let nextState : ThreadContext :=
    { viewingChannelId := state.viewingChannelId,
      customStyle := none,
      defaultMessageCount := none }
  match s1.2 with
  | some _ =>
      { posts := [mkPost channelId threadTs (strL "Style cleared.")], enqueued := none }
  | none =>
      if ctx.createStateOk then
        { posts :=
            [ { channel := channelId, thread_ts := some threadTs,
                text := strL "Welcome to TLDR",
                metadata := some (buildThreadStateMetadata nextState) },
              mkPost channelId threadTs (strL "Style cleared.") ],
          enqueued := none }
      else
        { posts := [mkPost channelId threadTs (strL "Style cleared.")], enqueued := none }

/-- The `summarize` case of `assistant.ts` (`userMessage`): resolve the
target channel, compute the effective style, then `await setStatus(...)` —
whose rejection propagates to the handler's outer catch, which only logs, so
nothing is posted or enqueued — then build the task and enqueue it; a
`sendToSqs` failure posts the canonical failure string. -/
def assistantSummarize (channelId userId threadTs text : List Char)
    (count : Option JsNum) (targetChannel styleOverride : Option (List Char))
    (ctx : HandlerCtx) : HandlerResult :=
  let state := (cacheLookup ctx).1
  match resolveTarget targetChannel state with
  | none => { posts := [mkPost channelId threadTs noChannelText], enqueued := none }
  | some target =>
      let effectiveStyle :=
        match styleOverride with
        | some s => some s
        | none => state.customStyle
      if ctx.statusOk then
        let task := buildSummarizeTask ctx.uuid userId target threadTs channelId
          text count effectiveStyle
        if ctx.sqsOk then { posts := [], enqueued := some task }
        else
          { posts := [mkPost channelId threadTs canonicalFailureText], enqueued := none }
      else { posts := [], enqueued := none }

/-- The `summarize` case of `message.ts`: the same flow except the
`setStatus` call is fire-and-forget (`.catch` logging only), so its outcome
never affects the result. -/
def messageSummarize (channelId userId threadTs text : List Char)
    (count : Option JsNum) (targetChannel styleOverride : Option (List Char))
    (ctx : HandlerCtx) : HandlerResult :=
  let state := (cacheLookup ctx).1
  match resolveTarget targetChannel state with
  | none => { posts := [mkPost channelId threadTs noChannelText], enqueued := none }
  | some target =>
      let effectiveStyle :=
        match styleOverride with
        | some s => some s
        | none => state.customStyle
      let task := buildSummarizeTask ctx.uuid userId target threadTs channelId
        text count effectiveStyle
      if ctx.sqsOk then { posts := [], enqueued := some task }
      else
        { posts := [mkPost channelId threadTs canonicalFailureText], enqueued := none }

/-- The intent switch of `assistant.ts` `userMessage`. -/
def assistantDispatch (channelId userId threadTs text : List Char)
    (ctx : HandlerCtx) : HandlerResult :=
  match parseUserIntent text with
  | UserIntent.help =>
      { posts := [mkPost channelId threadTs (strL "TLDR Bot Help")], enqueued := none }
  | UserIntent.style instructions => styleBranch channelId threadTs instructions ctx
  | UserIntent.clearStyle => clearStyleBranch channelId threadTs ctx
  | UserIntent.summarize count targetChannel _ styleOverride =>
      assistantSummarize channelId userId threadTs text count targetChannel
        styleOverride ctx
  | UserIntent.unknown => emptyResult

/-- `userMessage` from `handlers/assistant.ts`: drop bot and subtype
messages, read channel, thread ts (`msg.thread_ts ?? msg.ts`), text
(`msg.text || ''`) and user, return early when channel, user or thread ts is
falsy, then dispatch on the parsed intent. -/
def assistantUserMessage (ev : MsgEvent) (ctx : HandlerCtx) : HandlerResult :=
  if ev.bot_id.isSome || ev.subtype.isSome then emptyResult
  else
    let threadTs := match ev.thread_ts with | some s => s | none => ev.ts
    let text := match ev.text with | some s => s | none => []
    match ev.channel, ev.user with
    | some channelId, some userId =>
        if channelId.isEmpty || userId.isEmpty || threadTs.isEmpty then emptyResult
        else assistantDispatch channelId userId threadTs text ctx
    | _, _ => emptyResult

/-- The intent switch of `message.ts`. -/
def messageDispatch (channelId userId threadTs text : List Char)
    (ctx : HandlerCtx) : HandlerResult :=
  match parseUserIntent text with
  | UserIntent.help =>
      { posts := [mkPost channelId threadTs (strL "TLDR Bot Help")], enqueued := none }
  | UserIntent.style instructions => styleBranch channelId threadTs instructions ctx
  | UserIntent.clearStyle => clearStyleBranch channelId threadTs ctx
  | UserIntent.summarize count targetChannel _ styleOverride =>
      messageSummarize channelId userId threadTs text count targetChannel
        styleOverride ctx
  | UserIntent.unknown => emptyResult

/-- The `message` event handler from `handlers/message.ts`: only IM channel
types, drop bot and subtype messages, thread ts is `msg.thread_ts || msg.ts`
(falsy fallback), return early when channel or user is falsy, then dispatch
on the parsed intent. -/
def messageHandlerRun (ev : MsgEvent) (ctx : HandlerCtx) : HandlerResult :=
  if (match ev.channel_type with
      | some t => !(t == strL "im")
      | none => false) then emptyResult
  else if ev.bot_id.isSome || ev.subtype.isSome then emptyResult
  else
    let threadTs :=
      match ev.thread_ts with
      | some s => if s.isEmpty then ev.ts else s
      | none => ev.ts
    let text := match ev.text with | some s => s | none => []
    match ev.channel, ev.user with
    | some channelId, some userId =>
        if channelId.isEmpty || userId.isEmpty then emptyResult
        else messageDispatch channelId userId threadTs text ctx
    | _, _ => emptyResult

/-! Embedding of `config.ts` and the Lambda entry point (`index.ts`). -/

/-- `AppConfig` from `config.ts`. -/
structure AppConfig where
  slackBotToken : List Char
  slackSigningSecret : List Char
  processingQueueUrl : List Char
deriving DecidableEq, Repr

/-- The three environment variables `config.ts` reads (`none` models an unset
variable). -/
structure EnvVars where
  slack_bot_token : Option (List Char)
  slack_signing_secret : Option (List Char)
  processing_queue_url : Option (List Char)
deriving DecidableEq, Repr

/-- `loadConfig` from `config.ts`: read the three variables, and throw with
the list of missing names when any is falsy (unset or empty). -/
def loadConfig (env : EnvVars) : Except (List Char) AppConfig :=
  let bot := env.slack_bot_token
  let sec := env.slack_signing_secret
  let q := env.processing_queue_url
  if !strTruthy bot || !strTruthy sec || !strTruthy q then
    let missing :=
      (if !strTruthy bot then [strL "SLACK_BOT_TOKEN"] else []) ++
      (if !strTruthy sec then [strL "SLACK_SIGNING_SECRET"] else []) ++
      (if !strTruthy q then [strL "PROCESSING_QUEUE_URL"] else [])
    Except.error
      (strL "Missing required environment variables: " ++
        List.intercalate (strL ", ") missing)
  else
    Except.ok
      { slackBotToken := bot.getD [],
        slackSigningSecret := sec.getD [],
        processingQueueUrl := q.getD [] }

/-- The `AwsLambdaReceiver` as constructed by `index.ts`: it is determined by
the signing secret passed to its constructor. -/
structure AwsLambdaReceiver where
  signingSecret : List Char
deriving DecidableEq, Repr

/-- The module-level mutable state of `index.ts`: the lazily initialized
receiver and config. -/
structure LambdaModuleState where
  receiver : Option AwsLambdaReceiver
  config : Option AppConfig
deriving DecidableEq, Repr

/-- The state at process start (`let receiver = null; let config = null`). -/
def initialModuleState : LambdaModuleState := { receiver := none, config := none }

/-- `initialize` from `index.ts`: return the cached receiver when one exists;
otherwise load the configuration from the environment, construct the receiver
from the signing secret, wire the app (`createApp`), cache both, and return
the receiver.  The boolean records whether the environment was read; a
`loadConfig` throw propagates. -/
def initializeReceiver (env : EnvVars) (st : LambdaModuleState) :
    Except (List Char) (AwsLambdaReceiver × LambdaModuleState × Bool) :=
  match st.receiver with
  | some r => Except.ok (r, st, false)
  | none =>
      match loadConfig env with
      | Except.error e => Except.error e
      | Except.ok config =>
          let receiver : AwsLambdaReceiver :=
            { signingSecret := config.slackSigningSecret }
          Except.ok (receiver,
            { receiver := some receiver, config := some config }, true)

/-! The streaming deliverer's chunk splitter.  The Rust worker sources are not
part of the repository snapshot (only `lambda/Cargo.toml`, its README and the
design documents are), so the splitter is modelled from the spec. -/

/-- Modelled from the spec: a paragraph boundary inside the window — the
length of the longest window prefix that ends right after a `"\n\n"` pair
(so the cut falls after the rightmost paragraph boundary). -/
def parCut : List Char → Option Nat
  | [] => none
  | [_] => none
  | a :: b :: rest =>
      match parCut (b :: rest) with
      | some k => some (k + 1)
      | none => if a == '\n' && b == '\n' then some 2 else none

/-- Modelled from the spec: a line boundary inside the window — the length of
the longest window prefix ending right after a newline. -/
def lineCut : List Char → Option Nat
  | [] => none
  | a :: rest =>
      match lineCut rest with
      | some k => some (k + 1)
      | none => if a == '\n' then some 1 else none

/-- Modelled from the spec: a whitespace boundary inside the window — the
length of the longest window prefix ending right after a whitespace
character. -/
def wsCut : List Char → Option Nat
  | [] => none
  | a :: rest =>
      match wsCut rest with
      | some k => some (k + 1)
      | none => if isWsChar a then some 1 else none

/-- Modelled from the spec: where to cut a too-large buffer.  Within the
window of the first `maxChars` characters, prefer the rightmost paragraph
boundary, then the rightmost line boundary, then the rightmost whitespace,
and fall back to a hard cut at `maxChars`; the cut is clamped to
`1 ≤ cut ≤ maxChars` so that progress is made and the ceiling is kept. -/
def pickSplit (maxChars : Nat) (s : List Char) : Nat :=
  let w := s.take maxChars
  let k :=
    match parCut w with
    | some k => k
    | none =>
        match lineCut w with
        | some k => k
        | none =>
            match wsCut w with
            | some k => k
            | none => maxChars
  max 1 (min k maxChars)

/-- Modelled from the spec: repeatedly emit a boundary-preferring chunk until
the remaining buffer fits in one append.  The fuel argument (initially the
buffer length) only witnesses termination; it never runs out. -/
def splitChunksGo : Nat → Nat → List Char → List (List Char)
  | 0, _, s => [s]
  | fuel + 1, maxChars, s =>
      if s.length ≤ maxChars then [s]
      else
        let k := pickSplit maxChars s
        s.take k :: splitChunksGo fuel maxChars (s.drop k)

/-- Modelled from the spec: split a buffer into the chunks the deliverer
appends, each at most `maxChars` characters. -/
def splitChunks (maxChars : Nat) (s : List Char) : List (List Char) :=
  splitChunksGo s.length maxChars s

example : splitChunks 5 (strL "ab cd ef") = [strL "ab ", strL "cd ef"] := by decide
example : splitChunks 5 (strL "abcdefgh") = [strL "abcde", strL "fgh"] := by decide
example : splitChunks 6 (strL "ab\ncd\n\nef gh") = [strL "ab\ncd\n", strL "\nef gh"] := by decide

/-! Sample values used by witness theorems. -/

/-- A sample environment for the Lambda entry point. -/
def envSampleA : EnvVars :=
  { slack_bot_token := some (strL "xoxb-1"),
    slack_signing_secret := some (strL "sec1"),
    processing_queue_url := some (strL "queue-url-1") }

/-- A different environment, showing that a warm call ignores the environment. -/
def envSampleB : EnvVars :=
  { slack_bot_token := some (strL "xoxb-2"),
    slack_signing_secret := some (strL "sec2"),
    processing_queue_url := some (strL "queue-url-2") }

/-- The receiver the first call on `envSampleA` constructs. -/
def receiverSampleA : AwsLambdaReceiver := { signingSecret := strL "sec1" }

/-- The module state after the first call on `envSampleA`. -/
def stateSampleA : LambdaModuleState :=
  { receiver := some receiverSampleA,
    config := some
      { slackBotToken := strL "xoxb-1",
        slackSigningSecret := strL "sec1",
        processingQueueUrl := strL "queue-url-1" } }

/-- A sample inbound assistant-thread message: `summarize last 50`. -/
def evSample : MsgEvent :=
  { channel := some (strL "D07"),
    channel_type := some (strL "im"),
    user := some (strL "U01"),
    text := some (strL "summarize last 50"),
    ts := strL "1700000000.000100",
    thread_ts := none,
    bot_id := none,
    subtype := none }

/-- The cached thread state for the sample: the user is viewing channel
`C42`, no custom style. -/
def cachedSample : CachedThreadState :=
  { thread_key := strL "D07:1700000000.000100",
    state_message_ts := strL "1700000000.000050",
    state :=
      { viewingChannelId := some (strL "C42"),
        customStyle := none,
        defaultMessageCount := none } }

/-- A handler context in which every external call succeeds. -/
def ctxSample : HandlerCtx :=
  { cached := some cachedSample,
    findThrows := false,
    findResult := none,
    createStateOk := true,
    statusOk := true,
    sqsOk := true,
    uuid := strL "11111111-2222-3333-4444-555555555555" }

/-- The task the sample run enqueues. -/
def taskSample : ProcessingTask :=
  buildSummarizeTask (strL "11111111-2222-3333-4444-555555555555")
    (strL "U01") (strL "C42") (strL "1700000000.000100") (strL "D07")
    (strL "summarize last 50") (some (JsNum.finite 50)) none

/-- The sample message asking for `2^53 + 1` messages, a count that is not
exactly representable as a double. -/
def evBig : MsgEvent :=
  { evSample with text := some (strL "summarize last 9007199254740993") }

/-- The task the `2^53 + 1` run enqueues: `parseInt` rounds the count to the
nearest double, `2^53`. -/
def taskBig : ProcessingTask :=
  buildSummarizeTask (strL "11111111-2222-3333-4444-555555555555")
    (strL "U01") (strL "C42") (strL "1700000000.000100") (strL "D07")
    (strL "summarize last 9007199254740993")
    (some (JsNum.finite 9007199254740992)) none

/-- The sample message with a plain `summarize` text. -/
def evSummarizePlain : MsgEvent :=
  { evSample with text := some (strL "summarize") }

/-- The task the plain `summarize` run enqueues (null message count). -/
def taskPlainSample : ProcessingTask :=
  buildSummarizeTask (strL "11111111-2222-3333-4444-555555555555")
    (strL "U01") (strL "C42") (strL "1700000000.000100") (strL "D07")
    (strL "summarize") none none

/-- A handler context whose `sendToSqs` call fails (status succeeds). -/
def ctxSqsFail : HandlerCtx :=
  { ctxSample with sqsOk := false }

/-- A handler context with a cold cache, a throwing state lookup, and a
failing state-message creation. -/
def ctxCreateFail : HandlerCtx :=
  { cached := none,
    findThrows := true,
    findResult := none,
    createStateOk := false,
    statusOk := true,
    sqsOk := false,
    uuid := strL "66666666-7777-8888-9999-000000000000" }

/-! Theorems.  General-purpose lemmas come first, then one theorem per claim
(with a witness where the theorem carries hypotheses). -/

theorem listPrefixOf_append_self (n b : List Char) :
    listPrefixOf n (n ++ b) = true := by
  induction n with
  | nil => rfl
  | cons a m ih => simp [listPrefixOf, ih]

theorem jsIncludes_nil_needle (l : List Char) : jsIncludes l [] = true := by
  cases l <;> rfl

theorem jsIncludes_of_append (a n b : List Char) :
    jsIncludes (a ++ (n ++ b)) n = true := by
  induction a with
  | nil =>
      cases n with
      | nil => exact jsIncludes_nil_needle b
      | cons c m =>
          show (listPrefixOf (c :: m) ((c :: m) ++ b) ||
            jsIncludes (m ++ b) (c :: m)) = true
          rw [listPrefixOf_append_self]
          rfl
  | cons x a' ih => simp [jsIncludes, ih]

theorem roundMantissa_small {n : Nat} (h : n < 2 ^ 53) : roundMantissa n = n := by
  unfold roundMantissa
  rw [if_pos h]

theorem natToJsNum_small {n : Nat} (h : n < 2 ^ 53) :
    natToJsNum n = JsNum.finite n := by
  simp only [natToJsNum, roundMantissa_small h]
  rw [if_pos (lt_trans h (by norm_num))]

theorem jsNumberToChars_small {v : Int} (h : v.natAbs < 2 ^ 53) :
    jsNumberToChars v = intToChars v := by
  have h21 : v.natAbs < 10 ^ 21 := lt_trans h (by norm_num)
  unfold jsNumberToChars intToChars jsNatToChars decForm
  by_cases hv : v < 0
  · rw [if_pos hv, if_pos hv, if_pos h21, if_pos h]
  · rw [if_neg hv, if_neg hv, if_pos h21, if_pos h]

/-- Claim C10 (amended): for every options record,
`buildSummarizeLoadingMessages` returns a non-empty list of at most 10
loading messages; and whenever `messageCount` is a finite number of
magnitude below `2^53` — so that a template literal renders it as its exact
decimal digits rather than exponent form (from `10^21`) or rounded
shortest-round-trip digits (from `2^53`) — the first message contains its
decimal rendering. -/
theorem C10_loading_messages_bounded :
    (∀ options : SummarizeLoadingMessagesOptions,
      buildSummarizeLoadingMessages options ≠ [] ∧
      (buildSummarizeLoadingMessages options).length ≤ 10) ∧
    (∀ (v : Int) (hasStyle : Bool), v.natAbs < 2 ^ 53 →
      jsIncludes
        ((buildSummarizeLoadingMessages
          { messageCount := JsNum.finite v, hasCustomStyle := hasStyle }).headD [])
        (intToChars v) = true) := by
  constructor
  · intro options
    have hlen : (buildSummarizeLoadingMessages options).length = 9 := rfl
    exact ⟨fun h => by rw [h] at hlen; simp at hlen, by omega⟩
  · intro v hasStyle hv
    have hhead : (buildSummarizeLoadingMessages
        { messageCount := JsNum.finite v, hasCustomStyle := hasStyle }).headD [] =
        strL "Reading the last " ++ jsNumberToChars v ++ strL " messages…" := rfl
    rw [hhead, jsNumberToChars_small hv, List.append_assoc]
    exact jsIncludes_of_append _ _ _

/-- Counterexamples for C10 as originally stated: at `messageCount = 10^21`
the template literal renders exponent form `1e+21`; and already at
`messageCount = 2^69` (below `10^21`) it renders the shortest round-trip
digits `590295810358705700000`, not the exact value `590295810358705651712`
— so in neither case does the first loading message contain the exact
decimal rendering of the count. -/
theorem C10_counterexample :
    (buildSummarizeLoadingMessages
        { messageCount := JsNum.finite (10 ^ 21), hasCustomStyle := false }).headD []
      = strL "Reading the last 1e+21 messages…" ∧
    jsIncludes
      ((buildSummarizeLoadingMessages
        { messageCount := JsNum.finite (10 ^ 21), hasCustomStyle := false }).headD [])
      (intToChars (10 ^ 21)) = false ∧
    (buildSummarizeLoadingMessages
        { messageCount := JsNum.finite (2 ^ 69), hasCustomStyle := false }).headD []
      = strL "Reading the last 590295810358705700000 messages…" ∧
    jsIncludes
      ((buildSummarizeLoadingMessages
        { messageCount := JsNum.finite (2 ^ 69), hasCustomStyle := false }).headD [])
      (intToChars (2 ^ 69)) = false := by
  refine ⟨by decide, by decide, by decide, by decide⟩

/-- Witness for C10: a count of 50 is rendered in decimal and appears in the
first loading message. -/
theorem C10_witness :
    ((50 : Int).natAbs < 2 ^ 53) ∧
    jsIncludes
      ((buildSummarizeLoadingMessages
        { messageCount := JsNum.finite 50, hasCustomStyle := false }).headD [])
      (intToChars 50) = true :=
  ⟨by norm_num, C10_loading_messages_bounded.2 50 false (by norm_num)⟩

/-- Claim C8: for every task and queue state, `sendToSqs` sends exactly one
message, whose body is the JSON serialization of the task, and hands the task
record back unmodified. -/
theorem C8_sendToSqs_frame (task : ProcessingTask) (w : SqsWorld) :
    (sendToSqs task w).1.queue = w.queue ++ [taskToJson task] ∧
    (sendToSqs task w).2 = task := by
  cases h : w.client <;> simp [sendToSqs, getClient, h]

/-- Claim C7: `initialize` is idempotent.  A first call (no cached receiver)
reads the environment and caches the receiver it constructs; every later call
returns that same receiver, leaves the module state unchanged, and reads no
environment at all (any environment gives the same answer). -/
theorem C7_initialize_idempotent (env : EnvVars) (st : LambdaModuleState)
    (r : AwsLambdaReceiver) (st' : LambdaModuleState) (b : Bool)
    (h : initializeReceiver env st = Except.ok (r, st', b)) :
    (st.receiver = none → b = true ∧ st'.receiver = some r) ∧
    ∀ env2, initializeReceiver env2 st' = Except.ok (r, st', false) := by
  unfold initializeReceiver at h
  split at h
  next r0 heq =>
    simp only [Except.ok.injEq, Prod.mk.injEq] at h
    obtain ⟨rfl, rfl, rfl⟩ := h
    constructor
    · intro hnone
      rw [hnone] at heq
      cases heq
    · intro env2
      unfold initializeReceiver
      rw [heq]
  next heq =>
    cases hcfg : loadConfig env with
    | error e => rw [hcfg] at h; cases h
    | ok config =>
        rw [hcfg] at h
        simp only [Except.ok.injEq, Prod.mk.injEq] at h
        obtain ⟨rfl, rfl, rfl⟩ := h
        refine ⟨fun _ => ⟨rfl, rfl⟩, fun env2 => ?_⟩
        unfold initializeReceiver
        rfl

/-- Witness for C7: a cold call on one environment constructs and caches the
receiver (reading the environment), and a warm call on a different
environment returns the same receiver without reading it. -/
theorem C7_witness :
    initializeReceiver envSampleA initialModuleState =
      Except.ok (receiverSampleA, stateSampleA, true) ∧
    initializeReceiver envSampleB stateSampleA =
      Except.ok (receiverSampleA, stateSampleA, false) :=
  ⟨rfl,
    (C7_initialize_idempotent envSampleA initialModuleState receiverSampleA
      stateSampleA true rfl).2 envSampleB⟩

/-- Claim C6: thread-state metadata round-trips.  For every `ThreadContext`
whose `viewingChannelId` and `customStyle` are each null or a non-empty
string (the builder drops falsy fields), parsing the `event_payload` of the
built metadata returns the original state. -/
theorem C6_thread_state_roundtrip (st : ThreadContext)
    (hv : st.viewingChannelId = none ∨
      ∃ s, st.viewingChannelId = some s ∧ s ≠ [])
    (hc : st.customStyle = none ∨ ∃ s, st.customStyle = some s ∧ s ≠ []) :
    parseThreadContextFromMetadata (buildThreadStateMetadata st).event_payload
      = st := by
  obtain ⟨v, c, d⟩ := st
  have hv' : v = none ∨ ∃ a t, v = some (a :: t) := by
    rcases hv with h | ⟨s, h, hs⟩
    · exact Or.inl h
    · obtain ⟨a, t, rfl⟩ := List.exists_cons_of_ne_nil hs
      exact Or.inr ⟨a, t, h⟩
  have hc' : c = none ∨ ∃ a t, c = some (a :: t) := by
    rcases hc with h | ⟨s, h, hs⟩
    · exact Or.inl h
    · obtain ⟨a, t, rfl⟩ := List.exists_cons_of_ne_nil hs
      exact Or.inr ⟨a, t, h⟩
  rcases hv' with rfl | ⟨a, t, rfl⟩ <;> rcases hc' with rfl | ⟨a2, t2, rfl⟩ <;>
    cases d <;> rfl

/-- Witness for C6: a concrete state with a viewing channel, a custom style
and a default message count survives the round-trip. -/
theorem C6_witness :
    parseThreadContextFromMetadata (buildThreadStateMetadata
      { viewingChannelId := some (strL "C123"),
        customStyle := some (strL "write as a haiku"),
        defaultMessageCount := some 25 }).event_payload =
      { viewingChannelId := some (strL "C123"),
        customStyle := some (strL "write as a haiku"),
        defaultMessageCount := some 25 } :=
  C6_thread_state_roundtrip _
    (Or.inr ⟨strL "C123", rfl, by decide⟩)
    (Or.inr ⟨strL "write as a haiku", rfl, by decide⟩)

theorem one_le_pickSplit (maxChars : Nat) (s : List Char) :
    1 ≤ pickSplit maxChars s := by
  simp only [pickSplit]
  omega

theorem pickSplit_le (maxChars : Nat) (s : List Char) (h : 1 ≤ maxChars) :
    pickSplit maxChars s ≤ maxChars := by
  simp only [pickSplit]
  omega

theorem splitChunksGo_chunk_le (fuel maxChars : Nat) (hmax : 1 ≤ maxChars) :
    ∀ s : List Char, s.length ≤ fuel + maxChars →
      ∀ c ∈ splitChunksGo fuel maxChars s, c.length ≤ maxChars := by
  induction fuel with
  | zero =>
      intro s hfuel c hc
      simp only [splitChunksGo, List.mem_singleton] at hc
      subst hc
      simpa using hfuel
  | succ n ih =>
      intro s hfuel c hc
      by_cases hlen : s.length ≤ maxChars
      · simp only [splitChunksGo, if_pos hlen, List.mem_singleton] at hc
        subst hc
        exact hlen
      · simp only [splitChunksGo, if_neg hlen, List.mem_cons] at hc
        rcases hc with rfl | hc
        · have hk := pickSplit_le maxChars s hmax
          simp only [List.length_take]
          omega
        · refine ih (s.drop (pickSplit maxChars s)) ?_ c hc
          have h1 := one_le_pickSplit maxChars s
          simp only [List.length_drop]
          omega

/-- Claim C3 (splitter modelled from the spec; the Rust worker sources are
not in the repository snapshot): whatever boundary is used — paragraph,
line, whitespace, or the hard cut — no emitted chunk exceeds the configured
maximum character ceiling. -/
theorem C3_chunks_bounded (maxChars : Nat) (s : List Char)
    (hmax : 1 ≤ maxChars) :
    ∀ c ∈ splitChunks maxChars s, c.length ≤ maxChars :=
  splitChunksGo_chunk_le s.length maxChars hmax s (by omega)

/-- Witness for C3: a concrete buffer split with ceiling 5 only yields chunks
of at most 5 characters. -/
theorem C3_witness :
    1 ≤ (5 : Nat) ∧
    ∀ c ∈ splitChunks 5 (strL "one two\nthree\n\nfour five"), c.length ≤ 5 :=
  ⟨by decide, C3_chunks_bounded 5 (strL "one two\nthree\n\nfour five") (by decide)⟩

theorem taskSchemaCheck_taskToJson (t : ProcessingTask) :
    taskSchemaCheck (taskToJson t) = true := by
  obtain ⟨cid, uid, ch, tts, och, ru, tx, mc, tci, cp, vis, dest, dd, dp⟩ := t
  cases mc with
  | none => cases tts <;> cases och <;> cases cp <;> cases dest <;> rfl
  | some jn =>
      cases jn <;> cases tts <;> cases och <;> cases cp <;> cases dest <;> rfl

/-- Claim C2: every `ProcessingTask` enqueued by the intake handlers conforms
to the task schema consumed from the queue (string, nullable-string,
nullable-integer, destination-enum and boolean fields as listed in spec
section 6). -/
theorem C2_enqueued_task_schema (ev : MsgEvent) (ctx : HandlerCtx)
    (t : ProcessingTask)
    (_h : (assistantUserMessage ev ctx).enqueued = some t ∨
      (messageHandlerRun ev ctx).enqueued = some t) :
    taskSchemaCheck (taskToJson t) = true :=
  taskSchemaCheck_taskToJson t

/-- Witness for C2: the sample run enqueues a task and its serialization
passes the schema check. -/
theorem C2_witness :
    (assistantUserMessage evSample ctxSample).enqueued = some taskSample ∧
    taskSchemaCheck (taskToJson taskSample) = true :=
  ⟨rfl, C2_enqueued_task_schema evSample ctxSample taskSample (Or.inl rfl)⟩

/-- Claim C1: on the unrecoverable failure paths of the intake handlers —
an enqueue failure in either summarize flow, and a failed state-message
creation in the style flow — the only message posted is exactly the
canonical failure string (in particular no partial summary content). -/
theorem C1_canonical_failure :
    (∀ (channelId userId threadTs text : List Char) (count : Option JsNum)
        (targetChannel styleOverride : Option (List Char)) (ctx : HandlerCtx)
        (target : List Char),
      ctx.sqsOk = false → ctx.statusOk = true →
      resolveTarget targetChannel (cacheLookup ctx).1 = some target →
      assistantSummarize channelId userId threadTs text count targetChannel
          styleOverride ctx =
        { posts := [mkPost channelId threadTs canonicalFailureText],
          enqueued := none }) ∧
    (∀ (channelId userId threadTs text : List Char) (count : Option JsNum)
        (targetChannel styleOverride : Option (List Char)) (ctx : HandlerCtx)
        (target : List Char),
      ctx.sqsOk = false →
      resolveTarget targetChannel (cacheLookup ctx).1 = some target →
      messageSummarize channelId userId threadTs text count targetChannel
          styleOverride ctx =
        { posts := [mkPost channelId threadTs canonicalFailureText],
          enqueued := none }) ∧
    (∀ (channelId threadTs instructions : List Char) (ctx : HandlerCtx),
      (loadOnMiss ctx (cacheLookup ctx).1 (cacheLookup ctx).2).2 = none →
      ctx.createStateOk = false →
      styleBranch channelId threadTs instructions ctx =
        { posts := [mkPost channelId threadTs canonicalFailureText],
          enqueued := none }) := by
  refine ⟨?_, ?_, ?_⟩
  · intro channelId userId threadTs text count targetChannel styleOverride ctx
      target hsqs hstatus htarget
    simp [assistantSummarize, htarget, hstatus, hsqs]
  · intro channelId userId threadTs text count targetChannel styleOverride ctx
      target hsqs htarget
    simp [messageSummarize, htarget, hsqs]
  · intro channelId threadTs instructions ctx hmiss hcreate
    simp [styleBranch, hmiss, hcreate]

/-- Witness for C1: concrete failing runs of all three paths produce exactly
the canonical failure post. -/
theorem C1_witness :
    ctxSqsFail.sqsOk = false ∧
    assistantSummarize (strL "D07") (strL "U01") (strL "111.222")
        (strL "summarize") none none none ctxSqsFail =
      { posts := [mkPost (strL "D07") (strL "111.222") canonicalFailureText],
        enqueued := none } ∧
    messageSummarize (strL "D07") (strL "U01") (strL "111.222")
        (strL "summarize") none none none ctxSqsFail =
      { posts := [mkPost (strL "D07") (strL "111.222") canonicalFailureText],
        enqueued := none } ∧
    styleBranch (strL "D07") (strL "111.222") (strL "be funny") ctxCreateFail =
      { posts := [mkPost (strL "D07") (strL "111.222") canonicalFailureText],
        enqueued := none } :=
  ⟨rfl,
    C1_canonical_failure.1 (strL "D07") (strL "U01") (strL "111.222")
      (strL "summarize") none none none ctxSqsFail (strL "C42") rfl rfl rfl,
    C1_canonical_failure.2.1 (strL "D07") (strL "U01") (strL "111.222")
      (strL "summarize") none none none ctxSqsFail (strL "C42") rfl rfl,
    C1_canonical_failure.2.2 (strL "D07") (strL "111.222") (strL "be funny")
      ctxCreateFail rfl rfl⟩

/-- Claim C5 (code bug): the assistant handler awaits its
`setStatus`/loading-indicator call inside the handler's try block, so a
status-call failure aborts the flow — the task is not enqueued and no
message is posted — while with an otherwise identical context the task is
enqueued; the `message.ts` handler's fire-and-forget status call, by
contrast, never affects its outcome. -/
theorem C5_status_call_blocks_assistant_enqueue :
    (assistantUserMessage evSample { ctxSample with statusOk := false }).enqueued
        = none ∧
    (assistantUserMessage evSample { ctxSample with statusOk := false }).posts
        = [] ∧
    (assistantUserMessage evSample ctxSample).enqueued = some taskSample ∧
    messageHandlerRun evSample { ctxSample with statusOk := false } =
      messageHandlerRun evSample ctxSample :=
  ⟨rfl, rfl, rfl, rfl⟩

theorem digit_not_ws {c : Char} (h : isDigitChar c = true) : isWsChar c = false := by
  simp only [isDigitChar, Bool.and_eq_true, decide_eq_true_eq] at h
  simp only [isWsChar, Bool.or_eq_false_iff, beq_eq_false_iff_ne, ne_eq,
    Bool.and_eq_false_iff, decide_eq_false_iff_not]
  omega

theorem jsLowerChar_eq_self_of_digit {c : Char} (h : isDigitChar c = true) :
    jsLowerChar c = c := by
  simp only [isDigitChar, Bool.and_eq_true, decide_eq_true_eq] at h
  unfold jsLowerChar
  rw [if_neg (by omega)]

theorem jsLower_eq_self_of_digits {ds : List Char}
    (h : ∀ c ∈ ds, isDigitChar c = true) : jsLower ds = ds := by
  induction ds with
  | nil => rfl
  | cons c t ih =>
      simp only [jsLower, List.map_cons]
      rw [jsLowerChar_eq_self_of_digit (h c (by simp))]
      have := ih (fun x hx => h x (by simp [hx]))
      simpa [jsLower] using this

theorem listPrefixOf_mem {n l : List Char} (h : listPrefixOf n l = true) :
    ∀ c ∈ n, c ∈ l := by
  induction n generalizing l with
  | nil => intro c hc; exact absurd hc (List.not_mem_nil c)
  | cons a m ih =>
      cases l with
      | nil => cases h
      | cons b l' =>
          simp only [listPrefixOf, Bool.and_eq_true, beq_iff_eq] at h
          intro c hc
          rcases List.mem_cons.1 hc with rfl | hc'
          · exact h.1 ▸ List.mem_cons_self _ _
          · exact List.mem_cons_of_mem _ (ih h.2 c hc')

theorem jsIncludes_mem {l n : List Char} (h : jsIncludes l n = true) :
    ∀ c ∈ n, c ∈ l := by
  induction l with
  | nil =>
      cases n with
      | nil => intro c hc; exact absurd hc (List.not_mem_nil c)
      | cons a m => cases h
  | cons x t ih =>
      simp only [jsIncludes, Bool.or_eq_true] at h
      rcases h with h | h
      · exact listPrefixOf_mem h
      · intro c hc
        exact List.mem_cons_of_mem _ (ih h c hc)

theorem jsIncludes_eq_false_of_not_mem {l n : List Char} (c : Char)
    (hcn : c ∈ n) (hcl : c ∉ l) : jsIncludes l n = false := by
  cases h : jsIncludes l n
  · rfl
  · exact absurd (jsIncludes_mem h c hcn) hcl

theorem listPrefixOf_iff {n l : List Char} :
    listPrefixOf n l = true ↔ ∃ b, l = n ++ b := by
  induction n generalizing l with
  | nil => simpa [listPrefixOf] using ⟨l, rfl⟩
  | cons a m ih =>
      cases l with
      | nil =>
          simp only [listPrefixOf, List.cons_append]
          constructor
          · intro h; cases h
          · rintro ⟨b, h⟩; cases h
      | cons b l' =>
          simp only [listPrefixOf, Bool.and_eq_true, beq_iff_eq, ih,
            List.cons_append]
          constructor
          · rintro ⟨rfl, b2, rfl⟩; exact ⟨b2, rfl⟩
          · rintro ⟨b2, heq⟩
            injection heq with h1 h2
            exact ⟨h1.symm, b2, h2⟩

theorem jsIncludes_iff {l n : List Char} :
    jsIncludes l n = true ↔ ∃ a b, l = a ++ (n ++ b) := by
  induction l with
  | nil =>
      cases n with
      | nil => simpa [jsIncludes, listPrefixOf] using ⟨[], [], rfl⟩
      | cons c m =>
          simp only [jsIncludes, listPrefixOf]
          constructor
          · intro h; cases h
          · rintro ⟨a, b, heq⟩
            exact absurd heq (by simp)
  | cons x t ih =>
      simp only [jsIncludes, Bool.or_eq_true, ih, listPrefixOf_iff]
      constructor
      · rintro (⟨b, heq⟩ | ⟨a, b, rfl⟩)
        · exact ⟨[], b, heq⟩
        · exact ⟨x :: a, b, rfl⟩
      · rintro ⟨a, b, heq⟩
        cases a with
        | nil => exact Or.inl ⟨b, by simpa using heq⟩
        | cons y a' =>
            injection heq with h1 h2
            exact Or.inr ⟨a', b, h2⟩

theorem dropWhile_ws_eq_self {l : List Char} (h : headIsWs l = false) :
    l.dropWhile isWsChar = l := by
  cases l with
  | nil => rfl
  | cons c t =>
      simp only [headIsWs] at h
      simp [List.dropWhile_cons, h]

theorem jsTrim_eq_self {l : List Char} (h1 : headIsWs l = false)
    (h2 : headIsWs l.reverse = false) : jsTrim l = l := by
  unfold jsTrim dropTrailingWs
  rw [dropWhile_ws_eq_self h1, dropWhile_ws_eq_self h2, List.reverse_reverse]

theorem dropWhile_ws_append {l : List Char} (hl : headIsWs l = false)
    (a : List Char) : ∃ a2, (a ++ l).dropWhile isWsChar = a2 ++ l := by
  induction a with
  | nil => exact ⟨[], dropWhile_ws_eq_self hl⟩
  | cons x a' ih =>
      by_cases hx : isWsChar x = true
      · obtain ⟨a2, ha2⟩ := ih
        exact ⟨a2, by simpa [List.dropWhile_cons, hx] using ha2⟩
      · refine ⟨x :: a', ?_⟩
        simp only [Bool.not_eq_true] at hx
        simp [List.dropWhile_cons, hx]

theorem jsTrim_preserves_includes {l n : List Char} (hne : n ≠ [])
    (hh : headIsWs n = false) (hl : headIsWs n.reverse = false)
    (h : jsIncludes l n = true) : jsIncludes (jsTrim l) n = true := by
  obtain ⟨a, b, rfl⟩ := jsIncludes_iff.1 h
  obtain ⟨c, m, rfl⟩ := List.exists_cons_of_ne_nil hne
  have h1 : headIsWs ((c :: m) ++ b) = false := hh
  obtain ⟨a2, ha2⟩ := dropWhile_ws_append h1 a
  obtain ⟨c2, m2, hrev⟩ : ∃ c2 m2, (c :: m).reverse = c2 :: m2 := by
    cases hr : (c :: m).reverse with
    | nil => exact absurd (List.reverse_eq_nil_iff.1 hr) (by simp)
    | cons c2 m2 => exact ⟨c2, m2, rfl⟩
  have h2 : headIsWs ((c :: m).reverse ++ a2.reverse) = false := by
    rw [hrev] at hl ⊢
    exact hl
  obtain ⟨b2, hb2⟩ := dropWhile_ws_append h2 b.reverse
  unfold jsTrim dropTrailingWs
  rw [ha2]
  have hrw : (a2 ++ ((c :: m) ++ b)).reverse =
      b.reverse ++ ((c :: m).reverse ++ a2.reverse) := by
    simp [List.reverse_append, List.append_assoc]
  rw [hrw, hb2]
  have hrw2 : (b2 ++ ((c :: m).reverse ++ a2.reverse)).reverse =
      a2 ++ ((c :: m) ++ b2.reverse) := by
    simp [List.reverse_append, List.append_assoc]
  rw [hrw2]
  exact jsIncludes_of_append _ _ _

/-- Claim C9: help takes precedence over every other intent.  Whenever the
lowercased text contains `help` (or equals `?`, or contains `what can`),
`parseUserIntent` returns the help intent — whatever else the text contains,
including style and summarize forms, since the help test is the first
clause. -/
theorem C9_help_precedence (t : List Char)
    (h : jsIncludes (jsLower t) (strL "help") = true ∨
      jsLower t = strL "?" ∨
      jsIncludes (jsLower t) (strL "what can") = true) :
    parseUserIntent t = UserIntent.help := by
  have hcond : (jsIncludes (jsTrim (jsLower t)) (strL "help") ||
      (jsTrim (jsLower t) == strL "?") ||
      jsIncludes (jsTrim (jsLower t)) (strL "what can")) = true := by
    rcases h with h | h | h
    · rw [jsTrim_preserves_includes (by decide) (by decide) (by decide) h]
      rfl
    · rw [h]
      decide
    · rw [jsTrim_preserves_includes (by decide) (by decide) (by decide) h]
      simp
  simp only [parseUserIntent]
  rw [hcond]
  rfl

/-- Witness for C9: a mixed-case text that also matches the summarize and
`last N` forms still parses as help. -/
theorem C9_witness :
    (jsIncludes (jsLower (strL "can you HELP me summarize last 5"))
        (strL "help") = true ∨
      jsLower (strL "can you HELP me summarize last 5") = strL "?" ∨
      jsIncludes (jsLower (strL "can you HELP me summarize last 5"))
        (strL "what can") = true) ∧
    parseUserIntent (strL "can you HELP me summarize last 5") =
      UserIntent.help :=
  ⟨Or.inl (by decide),
    C9_help_precedence (strL "can you HELP me summarize last 5")
      (Or.inl (by decide))⟩

theorem takeWhile_eq_self_of_all {p : Char → Bool} {l : List Char}
    (h : ∀ c ∈ l, p c = true) : l.takeWhile p = l := by
  induction l with
  | nil => rfl
  | cons c t ih =>
      rw [List.takeWhile_cons, if_pos (h c (by simp))]
      rw [ih (fun x hx => h x (by simp [hx]))]

theorem digit_ne_char {c c0 : Char} (h : isDigitChar c = true)
    (h0 : isDigitChar c0 = false) : (c == c0) = false := by
  cases hq : (c == c0)
  · rfl
  · have hc : c = c0 := by simpa using hq
    rw [hc, h0] at h
    cases h

theorem parseJsInt_digits {ds : List Char} (hne : ds ≠ [])
    (hd : ∀ c ∈ ds, isDigitChar c = true) (hsmall : digitsVal ds < 2 ^ 53) :
    parseJsInt ds = some (JsNum.finite (digitsVal ds)) := by
  obtain ⟨d, r, rfl⟩ := List.exists_cons_of_ne_nil hne
  have hdd := hd d (by simp)
  have hdrop : (d :: r).dropWhile isWsChar = d :: r :=
    dropWhile_ws_eq_self (by simp [headIsWs, digit_not_ws hdd])
  simp [parseJsInt, hdrop, digit_ne_char hdd (show isDigitChar '-' = false by decide),
    digit_ne_char hdd (show isDigitChar '+' = false by decide), parseDigits,
    takeWhile_eq_self_of_all hd, natToJsNum_small hsmall]

theorem splitWsGo_all_tok {l : List Char} (h : ∀ c ∈ l, isWsChar c = false) :
    ∀ cur, splitWsGo false cur l = [cur.reverse ++ l] := by
  induction l with
  | nil => intro cur; simp [splitWsGo]
  | cons c t ih =>
      intro cur
      simp only [splitWsGo, h c (by simp)]
      rw [ih (fun x hx => h x (by simp [hx])) (c :: cur)]
      simp

theorem splitWsGo_skip_tok {l : List Char} (hne : l ≠ [])
    (h : ∀ c ∈ l, isWsChar c = false) : splitWsGo true [] l = [l] := by
  obtain ⟨c, t, rfl⟩ := List.exists_cons_of_ne_nil hne
  simp only [splitWsGo, h c (by simp)]
  rw [splitWsGo_all_tok (fun x hx => h x (by simp [hx])) [c]]
  simp

theorem chanSearch_none {t : List Char} (h : ∀ c ∈ t, ¬c = '<') :
    chanSearch t = none := by
  induction t with
  | nil => rfl
  | cons c t' ih =>
      have hc : (c == '<') = false := by
        simpa using h c (by simp)
      have ht := ih (fun x hx => h x (by simp [hx]))
      have hat : chanAt (c :: t') = none := by
        cases t' with
        | nil => rfl
        | cons b r => simp only [chanAt, hc, Bool.false_and, Bool.false_eq_true,
            if_false]
      simp [chanSearch, hat, ht]

theorem withStyleAt_none {c : Char} {t : List Char}
    (hc : ¬jsLowerChar c = 'w') : withStyleAt (c :: t) = none := by
  have hp : ciPrefixAt (strL "with") (c :: t) = false := by
    show listPrefixOf (strL "with") (jsLower (c :: t)) = false
    rw [show strL "with" = 'w' :: strL "ith" from rfl]
    rw [show jsLower (c :: t) = jsLowerChar c :: jsLower t from rfl]
    have hw : ('w' == jsLowerChar c) = false := by
      cases hq : ('w' == jsLowerChar c)
      · rfl
      · exact absurd (by simpa using hq : 'w' = jsLowerChar c).symm hc
    simp [listPrefixOf, hw]
  unfold withStyleAt
  rw [hp]
  simp

theorem styleOverrideOf_none {t : List Char}
    (h : ∀ c ∈ t, ¬jsLowerChar c = 'w') : styleOverrideOf t = none := by
  have hs : styleOverrideSearch t = none := by
    induction t with
    | nil => rfl
    | cons c t' ih =>
        simp only [styleOverrideSearch, withStyleAt_none (h c (by simp))]
        exact ih (fun x hx => h x (by simp [hx]))
  unfold styleOverrideOf
  rw [hs]

theorem parseUserIntent_summarize_last (ds : List Char) (hne : ds ≠ [])
    (hd : ∀ c ∈ ds, isDigitChar c = true) (hsmall : digitsVal ds < 2 ^ 53) :
    parseUserIntent (strL "summarize last " ++ ds) =
      UserIntent.summarize (some (JsNum.finite (digitsVal ds))) none false none := by
  have hnotmem : ∀ c0 : Char, isDigitChar c0 = false →
      c0 ∉ strL "summarize last " → c0 ∉ strL "summarize last " ++ ds := by
    intro c0 h0 hpre hmem
    rcases List.mem_append.1 hmem with hm | hm
    · exact hpre hm
    · rw [hd c0 hm] at h0; cases h0
  have hlow : jsLower (strL "summarize last " ++ ds) =
      strL "summarize last " ++ ds := by
    show (strL "summarize last " ++ ds).map jsLowerChar = _
    rw [List.map_append]
    rw [show (strL "summarize last ").map jsLowerChar = strL "summarize last "
      by decide]
    rw [show ds.map jsLowerChar = ds from jsLower_eq_self_of_digits hd]
  have hhead : headIsWs (strL "summarize last " ++ ds) = false := rfl
  have hlast : headIsWs (strL "summarize last " ++ ds).reverse = false := by
    obtain ⟨d, m, hrev⟩ : ∃ d m, ds.reverse = d :: m := by
      cases hr : ds.reverse with
      | nil => exact absurd (List.reverse_eq_nil_iff.1 hr) hne
      | cons d m => exact ⟨d, m, rfl⟩
    have hdm : d ∈ ds := List.mem_reverse.1 (hrev ▸ List.mem_cons_self d m)
    rw [List.reverse_append, hrev]
    show isWsChar d = false
    exact digit_not_ws (hd d hdm)
  have hhelp : jsIncludes (strL "summarize last " ++ ds) (strL "help") = false :=
    jsIncludes_eq_false_of_not_mem 'h' (by decide)
      (hnotmem 'h' (by decide) (by decide))
  have hwhat : jsIncludes (strL "summarize last " ++ ds) (strL "what can")
      = false :=
    jsIncludes_eq_false_of_not_mem 'h' (by decide)
      (hnotmem 'h' (by decide) (by decide))
  have hpost : jsIncludes (strL "summarize last " ++ ds) (strL "post here")
      = false :=
    jsIncludes_eq_false_of_not_mem 'h' (by decide)
      (hnotmem 'h' (by decide) (by decide))
  have hpub : jsIncludes (strL "summarize last " ++ ds) (strL "public")
      = false :=
    jsIncludes_eq_false_of_not_mem 'b' (by decide)
      (hnotmem 'b' (by decide) (by decide))
  have hq : ((strL "summarize last " ++ ds) == strL "?") = false := rfl
  have hclear : isClearStyleCmd (strL "summarize last " ++ ds) = false := rfl
  have hcap : styleCmdCapture (strL "summarize last " ++ ds) = none := rfl
  have hsumm : jsIncludes (strL "summarize last " ++ ds) (strL "summarize")
      = true := rfl
  have hso : styleOverrideOf (strL "summarize last " ++ ds) = none := by
    have hpre : ∀ c ∈ strL "summarize last ", ¬jsLowerChar c = 'w' := by decide
    refine styleOverrideOf_none ?_
    intro c hc hw
    rcases List.mem_append.1 hc with hm | hm
    · exact hpre c hm hw
    · rw [jsLowerChar_eq_self_of_digit (hd c hm)] at hw
      rw [hw] at hm
      exact absurd (hd _ hm) (by decide)
  have hchan : chanSearch (strL "summarize last " ++ ds) = none := by
    have hpre : ∀ c ∈ strL "summarize last ", ¬c = '<' := by decide
    refine chanSearch_none ?_
    intro c hc hlt
    rcases List.mem_append.1 hc with hm | hm
    · exact hpre c hm hlt
    · rw [hlt] at hm
      exact absurd (hd _ hm) (by decide)
  have hsplit : splitWs (strL "summarize last " ++ ds) =
      [strL "summarize", strL "last", ds] := by
    have h1 : splitWs (strL "summarize last " ++ ds) =
        strL "summarize" :: strL "last" :: splitWsGo true [] ds := rfl
    rw [h1, splitWsGo_skip_tok hne (fun c hc => digit_not_ws (hd c hc))]
  have hcount : findLastCount [strL "summarize", strL "last", ds] =
      some (JsNum.finite (digitsVal ds)) := by
    have e1 : findLastCount [strL "summarize", strL "last", ds] =
        (match parseJsInt ds with
          | some v => some v
          | none => findLastCount [ds]) := rfl
    rw [e1, parseJsInt_digits hne hd hsmall]
  simp only [parseUserIntent, hlow]
  rw [jsTrim_eq_self hhead hlast]
  simp only [hhelp, hq, hwhat, hclear, hcap, hpost, hpub, hso, hchan, hsplit,
    hcount, hsumm]
  simp

theorem assistantUserMessage_enqueued_count {ev : MsgEvent} {ctx : HandlerCtx}
    {t : ProcessingTask} {txt : List Char} {count : Option JsNum}
    {tch sOv : Option (List Char)} {pHere : Bool}
    (htext : ev.text = some txt)
    (hparse : parseUserIntent txt = UserIntent.summarize count tch pHere sOv)
    (henq : (assistantUserMessage ev ctx).enqueued = some t) :
    t.message_count = count := by
  cases hch : ev.channel with
  | none => simp [assistantUserMessage, hch, emptyResult] at henq
  | some channelId =>
      cases hu : ev.user with
      | none => simp [assistantUserMessage, hch, hu, emptyResult] at henq
      | some userId =>
          simp only [assistantUserMessage, htext, hch, hu] at henq
          split at henq
          · exact absurd henq (by simp [emptyResult])
          · split at henq
            · exact absurd henq (by simp [emptyResult])
            · simp only [assistantDispatch, hparse] at henq
              simp only [assistantSummarize] at henq
              split at henq
              · exact absurd henq (by simp)
              · split at henq
                · split at henq
                  · simp only [Option.some.injEq] at henq
                    rw [← henq]
                    rfl
                  · exact absurd henq (by simp)
                · exact absurd henq (by simp)

/-- Claim C4 (amended): a `summarize last N` message, with N a decimal
integer literal whose value is below `2^53` (so exactly representable as a
double), enqueues a task whose `message_count` is exactly N; a plain
`summarize` enqueues a task whose `message_count` is null (the default
applies downstream).  For larger literals `parseInt` rounds to the nearest
double, so equality with N can fail (see the counterexample). -/
theorem C4_message_count :
    (∀ (ds : List Char) (ev : MsgEvent) (ctx : HandlerCtx) (t : ProcessingTask),
      ds ≠ [] → (∀ c ∈ ds, isDigitChar c = true) →
      digitsVal ds < 2 ^ 53 →
      ev.text = some (strL "summarize last " ++ ds) →
      (assistantUserMessage ev ctx).enqueued = some t →
      t.message_count = some (JsNum.finite (digitsVal ds))) ∧
    (∀ (ev : MsgEvent) (ctx : HandlerCtx) (t : ProcessingTask),
      ev.text = some (strL "summarize") →
      (assistantUserMessage ev ctx).enqueued = some t →
      t.message_count = none) := by
  constructor
  · intro ds ev ctx t hne hd hsmall htext henq
    exact assistantUserMessage_enqueued_count htext
      (parseUserIntent_summarize_last ds hne hd hsmall) henq
  · intro ev ctx t htext henq
    exact assistantUserMessage_enqueued_count htext
      (show parseUserIntent (strL "summarize") =
        UserIntent.summarize none none false none from by decide) henq

/-- Counterexample for C4 as originally stated: for
`summarize last 9007199254740993` (the literal `2^53 + 1`) the enqueued
task's `message_count` is the nearest double `9007199254740992`, not the
literal's value. -/
theorem C4_counterexample :
    (assistantUserMessage evBig ctxSample).enqueued = some taskBig ∧
    taskBig.message_count = some (JsNum.finite 9007199254740992) ∧
    digitsVal (strL "9007199254740993") = 9007199254740993 ∧
    some (JsNum.finite 9007199254740992) ≠
      some (JsNum.finite (9007199254740993 : Nat)) := by
  refine ⟨?_, rfl, by decide, by decide⟩
  decide

/-- Witness for C4: `summarize last 50` enqueues a task with
`message_count = 50`; a plain `summarize` enqueues one with a null count. -/
theorem C4_witness :
    (assistantUserMessage evSample ctxSample).enqueued = some taskSample ∧
    taskSample.message_count = some (JsNum.finite (digitsVal (strL "50"))) ∧
    (assistantUserMessage evSummarizePlain ctxSample).enqueued =
      some taskPlainSample ∧
    taskPlainSample.message_count = none :=
  ⟨rfl,
    C4_message_count.1 (strL "50") evSample ctxSample taskSample (by decide)
      (by decide) (by decide) rfl rfl,
    rfl,
    C4_message_count.2 evSummarizePlain ctxSample taskPlainSample rfl rfl⟩

end TLDR
